import Mathlib

set_option maxHeartbeats 1000000

/-!
Verification development for the `Cache` class of the dependable-cache
repository (src/src/shared.ts).  The class is embedded shallowly: the
mutable observable cells of a cache entry become fields of an immutable
`Entry` record, the observable storage object becomes an association list
from string keys to optional entries (a slot holding `none` models a key
mapped to `undefined`), the memoized accessor table becomes a boolean
predicate on keys, and every mutating method returns the updated cache
together with the list of cell-write events it performed, so that the
write order mandated by the source can be stated and proved.
-/

/-- The status of a cache entry, from shared.ts. -/
inductive Status where
  | UNINITIALIZED
  | LOADING
  | LOADED
  | FAILED
  deriving DecidableEq

/-- A JavaScript value of payload type V: `undefined`, `null`, or a proper value.
The distinction matters because a `loadMany` projection past the end of the
resolved array stores `undefined`, not `null`. -/
inductive JsVal (V : Type) where
  | undefVal
  | jnull
  | val (v : V)
  deriving DecidableEq

/-- A cache entry: the three independently observable cells of shared.ts
(`value`, `status`, `error`).  `error = none` models the `null` error. -/
structure Entry (V E : Type) where
  value : JsVal V
  status : Status
  error : Option E
  deriving DecidableEq

/-- An id is a number or a string (shared.ts type `EntId`). -/
inductive EntId where
  | num (n : Nat)
  | str (s : String)
  deriving DecidableEq

/-- `String(id)`: the string coercion applied to ids for storage keys. -/
def EntId.key : EntId → String
  | .num n => toString n
  | .str s => s

/-- The cache state: the memoized accessor table (as the set of keys holding
an accessor) and the storage mapping held in the `_cache` observable.  A
binding `(k, none)` models the slot for `k` being set to `undefined`. -/
structure Cache (V E : Type) where
  accessors : String → Bool
  storage : List (String × Option (Entry V E))

/-- A cell-write event, used to record the order in which an operation
writes the observable cells, plus the invocation of the shared resolver
of `loadMany`. -/
inductive Event (V E : Type) where
  | wValue (key : String) (v : JsVal V)
  | wStatus (key : String) (s : Status)
  | wError (key : String) (e : Option E)
  | invokeShared
  deriving DecidableEq

/-- Whether an event is the invocation of the shared resolver. -/
def Event.isInvoke {V E : Type} : Event V E → Bool
  | .invokeShared => true
  | _ => false

/-- Reading `cacheEntries[key]`: the first binding for the key, where a slot
holding `undefined` (modelled `none`) reads the same as an absent key. -/
def lookupEntry {V E : Type} : List (String × Option (Entry V E)) → String → Option (Entry V E)
  | [], _ => none
  | (k, v) :: rest, key => if k = key then v else lookupEntry rest key

/-- A freshly created entry: value `null`, status UNINITIALIZED, error `null`. -/
def freshEntry {V E : Type} : Entry V E :=
  { value := .jnull, status := .UNINITIALIZED, error := none }

/-- The `Cache` constructor: empty accessor table, empty storage.  (The
optional name only tags the observable for dev tooling.) -/
def Cache.make {V E : Type} : Cache V E :=
  { accessors := fun _ => false, storage := [] }

/-- `clear()`: reset the accessor table and the storage mapping to empty. -/
def Cache.clear {V E : Type} (_c : Cache V E) : Cache V E :=
  Cache.make

/-- `_getCacheEntry(id)`: return the entry under `String(id)`, creating and
installing a fresh one (by replacing the storage value with an extended
copy) when no entry is present. -/
def Cache.getCacheEntry {V E : Type} (c : Cache V E) (id : EntId) : Entry V E × Cache V E :=
  match lookupEntry c.storage id.key with
  | some e => (e, c)
  | none =>
      (freshEntry, { c with storage := (id.key, some freshEntry) :: c.storage })

/-- Writing one cell of the entry under `key` in place (the entry object is
shared between the storage slot and the writer, so the slot sees the new
field).  Writing a cell of a nonexistent entry leaves storage unchanged;
all call sites write right after `_getCacheEntry`, so the entry exists. -/
def Cache.writeEntry {V E : Type} (c : Cache V E) (key : String)
    (f : Entry V E → Entry V E) : Cache V E :=
  match lookupEntry c.storage key with
  | some e => { c with storage := (key, some (f e)) :: c.storage }
  | none => c

/-- `entry.value(v)` on the entry under `key`, recording the write event. -/
def wsValue {V E : Type} (s : Cache V E × List (Event V E)) (key : String) (v : JsVal V) :
    Cache V E × List (Event V E) :=
  (s.1.writeEntry key (fun e => { e with value := v }), s.2 ++ [.wValue key v])

/-- `entry.status(st)` on the entry under `key`, recording the write event. -/
def wsStatus {V E : Type} (s : Cache V E × List (Event V E)) (key : String) (st : Status) :
    Cache V E × List (Event V E) :=
  (s.1.writeEntry key (fun e => { e with status := st }), s.2 ++ [.wStatus key st])

/-- `entry.error(err)` on the entry under `key`, recording the write event. -/
def wsError {V E : Type} (s : Cache V E × List (Event V E)) (key : String) (err : Option E) :
    Cache V E × List (Event V E) :=
  (s.1.writeEntry key (fun e => { e with error := err }), s.2 ++ [.wError key err])

/-- The `valueOrResolver` argument of `load`: either a direct value (which
always resolves) or a resolver whose awaited outcome either resolves with
a value or throws/rejects with a reason of type E. -/
inductive ValueOrResolver (V E : Type) where
  | value (v : JsVal V)
  | resolver (r : Except E (JsVal V))

/-- The awaited outcome of the `valueOrResolver` argument: a direct value is
wrapped with `Promise.resolve` and always succeeds, a resolver is invoked
and awaited. -/
def resolveVor {V E : Type} : ValueOrResolver V E → Except E (JsVal V)
  | .value v => .ok v
  | .resolver r => r

/-- `load(id, valueOrResolver)`: set status LOADING, await the resolution;
on success write value, then error := null, then status LOADED and return
the resolved value; on failure write error := reason, then status FAILED,
leave the value cell untouched, and return null. -/
def Cache.load {V E : Type} (c : Cache V E) (id : EntId) (vor : ValueOrResolver V E) :
    Cache V E × List (Event V E) × JsVal V :=
  let key := id.key
  let s1 := wsStatus ((c.getCacheEntry id).2, []) key .LOADING
  match resolveVor vor with
  | .ok w =>
      let s2 := wsStatus (wsError (wsValue s1 key w) key none) key .LOADED
      (s2.1, s2.2, w)
  | .error err =>
      let s2 := wsStatus (wsError s1 key (some err)) key .FAILED
      (s2.1, s2.2, .jnull)

/-- `byId(id)`: memoize a computed accessor under `String(id)` on first use,
then evaluate it; the accessor reads the entry (creating it when absent)
and returns the tuple of the three cells. -/
def Cache.byId {V E : Type} (c : Cache V E) (id : EntId) :
    Cache V E × (JsVal V × Status × Option E) :=
  let key := id.key
  let c1 := if c.accessors key then c
            else { c with accessors := fun k => if k = key then true else c.accessors k }
  let r := c1.getCacheEntry id
  (r.2, (r.1.value, r.1.status, r.1.error))

/-- `statusById(id)`: a direct read of the entry's status cell. -/
def Cache.statusById {V E : Type} (c : Cache V E) (id : EntId) : Cache V E × Status :=
  let r := c.getCacheEntry id
  (r.2, r.1.status)

/-- `initialize(id, valueOrResolver)` (named `initEntry` here): delegate to
`load` when the entry's status is UNINITIALIZED or FAILED, otherwise do
nothing and return `undefined` (modelled as result `none`). -/
def Cache.initEntry {V E : Type} (c : Cache V E) (id : EntId) (vor : ValueOrResolver V E) :
    Cache V E × List (Event V E) × Option (JsVal V) :=
  let r := c.getCacheEntry id
  if r.1.status = .UNINITIALIZED ∨ r.1.status = .FAILED then
    let l := r.2.load id vor
    (l.1, l.2.1, some l.2.2)
  else
    (r.2, [], none)

/-- The `valuesOrResolver` argument of `loadMany`. -/
inductive ValuesOrResolver (V E : Type) where
  | values (vs : List (JsVal V))
  | resolver (r : Except E (List (JsVal V)))

/-- The awaited outcome of the shared array of `loadMany`. -/
def resolveVors {V E : Type} : ValuesOrResolver V E → Except E (List (JsVal V))
  | .values vs => .ok vs
  | .resolver r => r

/-- Whether the `valuesOrResolver` argument is a callable resolver. -/
def ValuesOrResolver.isCallable {V E : Type} : ValuesOrResolver V E → Bool
  | .values _ => false
  | .resolver _ => true

/-- `newValues[i]`: JavaScript indexing, yielding `undefined` out of range. -/
def jsIndex {V : Type} (vs : List (JsVal V)) (i : Nat) : JsVal V :=
  match vs.get? i with
  | some v => v
  | none => .undefVal

/-- The loop of `loadMany`: one `load` per id, the resolver of the load at
position `i` being the thunk that awaits the shared array and projects the
element at index `i`. -/
def Cache.loadManyAux {V E : Type} (shared : Except E (List (JsVal V))) :
    Cache V E → List EntId → Nat → Cache V E × List (Event V E) × List (JsVal V)
  | c, [], _ => (c, [], [])
  | c, id :: rest, i =>
      let r1 := c.load id (.resolver (shared.map (fun vs => jsIndex vs i)))
      let r2 := Cache.loadManyAux shared r1.1 rest (i + 1)
      (r2.1, r1.2.1 ++ r2.2.1, r1.2.2 :: r2.2.2)

/-- `loadMany(ids, valuesOrResolver)`: invoke the shared resolver once (when
callable), then issue one `load` per id projecting that id's position out
of the shared array, collecting the results positionally. -/
def Cache.loadMany {V E : Type} (c : Cache V E) (ids : List EntId) (vor : ValuesOrResolver V E) :
    Cache V E × List (Event V E) × List (JsVal V) :=
  let invokeTr : List (Event V E) :=
    if vor.isCallable then [.invokeShared] else []
  let r := Cache.loadManyAux (resolveVors vor) c ids 0
  (r.1, invokeTr ++ r.2.1, r.2.2)

/-- `evict(id)`: reset the entry's cells in place (value := null, status :=
UNINITIALIZED, error := null, in that order), remove the memoized
accessor, and set the storage slot for the key to `undefined`. -/
def Cache.evict {V E : Type} (c : Cache V E) (id : EntId) : Cache V E × List (Event V E) :=
  let key := id.key
  let s1 := wsError (wsStatus (wsValue ((c.getCacheEntry id).2, []) key .jnull)
      key .UNINITIALIZED) key none
  let c2 : Cache V E :=
    { s1.1 with accessors := fun k => if k = key then false else s1.1.accessors k }
  ({ c2 with storage := (key, none) :: c2.storage }, s1.2)

/-- Modelled from the spec: the subscription mechanism of the external
observable cell (the `@dependable/state` package, which is not part of this
repository) delivers, per spec sections 4.1 and 6, a snapshot of the entry
at subscribe time and then one snapshot per subsequent change
notification.  The callback of `loaded` reads the status at each
notification, resolves with the current value on the first LOADED
snapshot, rejects with the current error on the first FAILED snapshot, and
unsubscribes upon settling, so all later snapshots are ignored; `none`
means the promise is still pending after the given snapshots. -/
def loadedRun {V E : Type} : List (Entry V E) → Option (Except (Option E) (JsVal V))
  | [] => none
  | e :: rest =>
      match e.status with
      | .LOADED => some (.ok e.value)
      | .FAILED => some (.error e.error)
      | _ => loadedRun rest

/-- `loaded(id)`: create the entry when absent, subscribe to its status cell
and settle per `loadedRun`, the first delivered snapshot being the entry's
state at call time and `future` the snapshots of later notifications. -/
def Cache.loaded {V E : Type} (c : Cache V E) (id : EntId) (future : List (Entry V E)) :
    Cache V E × Option (Except (Option E) (JsVal V)) :=
  let r := c.getCacheEntry id
  (r.2, loadedRun (r.1 :: future))

/-- The entry a read of `cacheEntries[String(id)]` observes: the stored
entry, or a fresh one when the slot is absent or `undefined`. -/
def entryOrFresh {V E : Type} (c : Cache V E) (key : String) : Entry V E :=
  match lookupEntry c.storage key with
  | some e => e
  | none => freshEntry

/-- The per-entry invariant of spec section 3: LOADED entries carry no
error, FAILED entries carry an error, UNINITIALIZED entries carry neither
value nor error. -/
def Entry.wf {V E : Type} (e : Entry V E) : Prop :=
  (e.status = .LOADED → e.error = none) ∧
  (e.status = .FAILED → e.error ≠ none) ∧
  (e.status = .UNINITIALIZED → e.value = .jnull ∧ e.error = none)

/-- A cache is well formed when every stored entry satisfies the per-entry
invariant. -/
def Cache.wf {V E : Type} (c : Cache V E) : Prop :=
  ∀ key e, lookupEntry c.storage key = some e → e.wf

/-- Evicting every key present in the storage mapping, one `evict` per key. -/
def evictAll {V E : Type} (c : Cache V E) : Cache V E :=
  (c.storage.map Prod.fst).foldl (fun acc k => (acc.evict (EntId.str k)).1) c

lemma lookupEntry_cons {V E : Type} (k : String) (v : Option (Entry V E)) (st : List (String × Option (Entry V E))) (key : String) :
    lookupEntry ((k, v) :: st) key = if k = key then v else lookupEntry st key := rfl

lemma lookupEntry_eq_none_of_not_mem {V E : Type} (st : List (String × Option (Entry V E))) (k : String) (h : k ∉ st.map Prod.fst) : lookupEntry st k = none := by
  induction st with
  | nil => rfl
  | cons p rest ih =>
      obtain ⟨pk, pv⟩ := p
      simp only [List.map_cons, List.mem_cons] at h
      push_neg at h
      rw [lookupEntry_cons, if_neg (Ne.symm h.1)]
      exact ih h.2

lemma getCacheEntry_fst {V E : Type} (c : Cache V E) (id : EntId) :
    (c.getCacheEntry id).1 = entryOrFresh c id.key := by
  unfold Cache.getCacheEntry entryOrFresh
  cases h : lookupEntry c.storage id.key <;> simp [h]

lemma getCacheEntry_lookup {V E : Type} (c : Cache V E) (id : EntId) (k : String) :
    lookupEntry ((c.getCacheEntry id).2).storage k =
      if id.key = k then some (entryOrFresh c id.key) else lookupEntry c.storage k := by
  unfold Cache.getCacheEntry entryOrFresh
  cases h : lookupEntry c.storage id.key with
  | some e =>
      simp only [h]
      by_cases hk : id.key = k
      · subst hk; simp [h]
      · simp [hk]
  | none =>
      by_cases hk : id.key = k
      · subst hk
        simp [h, lookupEntry_cons]
      · simp [h, lookupEntry_cons, hk]

lemma getCacheEntry_accessors {V E : Type} (c : Cache V E) (id : EntId) :
    ((c.getCacheEntry id).2).accessors = c.accessors := by
  unfold Cache.getCacheEntry
  cases h : lookupEntry c.storage id.key <;> simp [h]

lemma getCacheEntry_idem {V E : Type} (c : Cache V E) (id : EntId) :
    (((c.getCacheEntry id).2).getCacheEntry id).2 = (c.getCacheEntry id).2 := by
  unfold Cache.getCacheEntry
  cases h : lookupEntry c.storage id.key with
  | some e => simp [h]
  | none => simp [h, lookupEntry_cons]

lemma writeEntry_lookup {V E : Type} (c : Cache V E) (key k : String) (f : Entry V E → Entry V E) :
    lookupEntry ((c.writeEntry key f)).storage k =
      if key = k then (lookupEntry c.storage key).map f else lookupEntry c.storage k := by
  unfold Cache.writeEntry
  cases h : lookupEntry c.storage key with
  | some e =>
      simp [h, lookupEntry_cons]
  | none =>
      by_cases hk : key = k
      · subst hk
        simp [h]
      · simp [h, hk]

lemma writeEntry_accessors {V E : Type} (c : Cache V E) (key : String) (f : Entry V E → Entry V E) :
    ((c.writeEntry key f)).accessors = c.accessors := by
  unfold Cache.writeEntry
  cases h : lookupEntry c.storage key <;> simp [h]

lemma load_lookup {V E : Type} (c : Cache V E) (id : EntId) (vor : ValueOrResolver V E) (k : String) :
    lookupEntry ((c.load id vor).1).storage k =
      if id.key = k then
        some (match resolveVor vor with
              | .ok w => { value := w, status := .LOADED, error := none }
              | .error err =>
                  { value := (entryOrFresh c id.key).value, status := .FAILED,
                    error := some err })
      else lookupEntry c.storage k := by
  cases hr : resolveVor vor with
  | ok w =>
      simp only [Cache.load, hr, wsValue, wsStatus, wsError, writeEntry_lookup,
        getCacheEntry_lookup]
      by_cases hk : id.key = k <;> simp [hk]
  | error err =>
      simp only [Cache.load, hr, wsValue, wsStatus, wsError, writeEntry_lookup,
        getCacheEntry_lookup]
      by_cases hk : id.key = k <;> simp [hk]

lemma load_accessors {V E : Type} (c : Cache V E) (id : EntId) (vor : ValueOrResolver V E) :
    ((c.load id vor).1).accessors = c.accessors := by
  cases hr : resolveVor vor <;>
    simp [Cache.load, hr, wsValue, wsStatus, wsError, writeEntry_accessors,
      getCacheEntry_accessors]

lemma load_trace_ok {V E : Type} (c : Cache V E) (id : EntId) (vor : ValueOrResolver V E)
    (w : JsVal V) (h : resolveVor vor = .ok w) :
    (c.load id vor).2.1 = [.wStatus id.key .LOADING, .wValue id.key w,
      .wError id.key none, .wStatus id.key .LOADED] := by
  simp [Cache.load, h, wsValue, wsStatus, wsError]

lemma load_trace_error {V E : Type} (c : Cache V E) (id : EntId) (vor : ValueOrResolver V E)
    (err : E) (h : resolveVor vor = .error err) :
    (c.load id vor).2.1 = [.wStatus id.key .LOADING, .wError id.key (some err),
      .wStatus id.key .FAILED] := by
  simp [Cache.load, h, wsValue, wsStatus, wsError]

lemma load_result {V E : Type} (c : Cache V E) (id : EntId) (vor : ValueOrResolver V E) :
    (c.load id vor).2.2 = match resolveVor vor with
      | .ok w => w
      | .error _ => .jnull := by
  cases hr : resolveVor vor <;> simp [Cache.load, hr]

lemma byId_snd {V E : Type} (c : Cache V E) (id : EntId) :
    (c.byId id).2 = ((entryOrFresh c id.key).value, (entryOrFresh c id.key).status,
      (entryOrFresh c id.key).error) := by
  unfold Cache.byId
  by_cases ha : c.accessors id.key <;>
    simp only [ha, if_true, if_false, getCacheEntry_fst] <;>
    simp [entryOrFresh]

lemma byId_storage {V E : Type} (c : Cache V E) (id : EntId) :
    ((c.byId id).1).storage = ((c.getCacheEntry id).2).storage := by
  unfold Cache.byId Cache.getCacheEntry
  by_cases ha : c.accessors id.key <;>
    simp only [ha, if_true, if_false] <;>
    cases h : lookupEntry c.storage id.key <;> simp [h]

lemma load_no_invoke {V E : Type} (c : Cache V E) (id : EntId) (vor : ValueOrResolver V E) :
    ((c.load id vor).2.1).filter Event.isInvoke = [] := by
  cases hr : resolveVor vor with
  | ok w =>
      rw [load_trace_ok c id vor w hr]
      simp [Event.isInvoke]
  | error err =>
      rw [load_trace_error c id vor err hr]
      simp [Event.isInvoke]

lemma loadManyAux_frame {V E : Type} (shared : Except E (List (JsVal V))) :
    ∀ (ids : List EntId) (c : Cache V E) (i : Nat) (k : String), k ∉ ids.map EntId.key →
      lookupEntry ((Cache.loadManyAux shared c ids i).1).storage k = lookupEntry c.storage k := by
  intro ids
  induction ids with
  | nil => intro c i k _; rfl
  | cons id rest ih =>
      intro c i k hk
      simp only [List.map_cons, List.mem_cons] at hk
      push_neg at hk
      simp only [Cache.loadManyAux]
      rw [ih _ _ _ hk.2, load_lookup, if_neg (Ne.symm hk.1)]

lemma loadManyAux_length {V E : Type} (shared : Except E (List (JsVal V))) :
    ∀ (ids : List EntId) (c : Cache V E) (i : Nat),
      (Cache.loadManyAux shared c ids i).2.2.length = ids.length := by
  intro ids
  induction ids with
  | nil => intro c i; rfl
  | cons id rest ih =>
      intro c i
      simp only [Cache.loadManyAux, List.length_cons, ih]

lemma loadManyAux_no_invoke {V E : Type} (shared : Except E (List (JsVal V))) :
    ∀ (ids : List EntId) (c : Cache V E) (i : Nat),
      ((Cache.loadManyAux shared c ids i).2.1).filter Event.isInvoke = [] := by
  intro ids
  induction ids with
  | nil => intro c i; rfl
  | cons id rest ih =>
      intro c i
      simp only [Cache.loadManyAux, List.filter_append, ih, load_no_invoke,
        List.append_nil]

lemma loadManyAux_perId {V E : Type} (vs : List (JsVal V)) :
    ∀ (ids : List EntId) (c : Cache V E) (i : Nat),
      (ids.map EntId.key).Nodup →
      ∀ (j : Nat) (id1 : EntId), ids.get? j = some id1 →
        lookupEntry ((Cache.loadManyAux (Except.ok vs : Except E (List (JsVal V))) c ids i).1).storage id1.key
          = some { value := jsIndex vs (i + j), status := Status.LOADED, error := none } ∧
        (Cache.loadManyAux (Except.ok vs : Except E (List (JsVal V))) c ids i).2.2.get? j
          = some (jsIndex vs (i + j)) := by
  intro ids
  induction ids with
  | nil =>
      intro c i _ j id1 hj
      simp at hj
  | cons id rest ih =>
      intro c i hnd j id1 hj
      rw [List.map_cons, List.nodup_cons] at hnd
      cases j with
      | zero =>
          have hid : id = id1 := by simpa using hj
          subst hid
          constructor
          · simp only [Cache.loadManyAux]
            rw [loadManyAux_frame _ _ _ _ _ hnd.1, load_lookup, if_pos rfl]
            simp [resolveVor, Except.map, Nat.add_zero]
          · simp only [Cache.loadManyAux, List.get?]
            rw [load_result]
            simp [resolveVor, Except.map, Nat.add_zero]
      | succ j =>
          have hrec := ih ((c.load id (.resolver ((Except.ok vs : Except E (List (JsVal V))).map (fun l => jsIndex l i)))).1) (i + 1) hnd.2 j id1 (by simpa using hj)
          have harith : i + 1 + j = i + (j + 1) := by omega
          rw [harith] at hrec
          simp only [Cache.loadManyAux]
          exact ⟨hrec.1, hrec.2⟩

lemma evict_lookup {V E : Type} (c : Cache V E) (id : EntId) (k : String) :
    lookupEntry ((c.evict id).1).storage k =
      if id.key = k then none else lookupEntry c.storage k := by
  unfold Cache.evict
  simp only [wsValue, wsStatus, wsError, lookupEntry_cons]
  by_cases hk : id.key = k
  · simp [hk]
  · simp [hk, writeEntry_lookup, getCacheEntry_lookup]

lemma evict_accessors_self {V E : Type} (c : Cache V E) (id : EntId) :
    ((c.evict id).1).accessors id.key = false := by
  simp [Cache.evict]

lemma evict_trace {V E : Type} (c : Cache V E) (id : EntId) :
    (c.evict id).2 = [.wValue id.key .jnull, .wStatus id.key .UNINITIALIZED,
      .wError id.key none] := by
  simp [Cache.evict, wsValue, wsStatus, wsError]

lemma evictFold_lookup {V E : Type} :
    ∀ (keys : List String) (c : Cache V E) (k : String),
      lookupEntry ((keys.foldl (fun acc key => (acc.evict (EntId.str key)).1) c).storage) k
        = if k ∈ keys then none else lookupEntry c.storage k := by
  intro keys
  induction keys with
  | nil => intro c k; simp
  | cons key rest ih =>
      intro c k
      simp only [List.foldl_cons]
      rw [ih, evict_lookup]
      by_cases hmem : k ∈ rest
      · simp [hmem]
      · by_cases hk : key = k
        · subst hk
          simp [hmem, EntId.key]
        · simp [hmem, hk, List.mem_cons, Ne.symm hk, EntId.key]

lemma evictAll_lookup {V E : Type} (c : Cache V E) (k : String) :
    lookupEntry (evictAll c).storage k = none := by
  unfold evictAll
  rw [evictFold_lookup]
  by_cases hmem : k ∈ c.storage.map Prod.fst
  · simp [hmem]
  · simp [hmem, lookupEntry_eq_none_of_not_mem c.storage k hmem]

lemma freshEntry_wf {V E : Type} : (freshEntry : Entry V E).wf := by
  simp [Entry.wf, freshEntry]

lemma entryOrFresh_wf {V E : Type} (c : Cache V E) (hc : c.wf) (key : String) :
    (entryOrFresh c key).wf := by
  unfold entryOrFresh
  cases h : lookupEntry c.storage key with
  | some e => exact hc _ _ h
  | none => exact freshEntry_wf

lemma make_wf {V E : Type} : (Cache.make : Cache V E).wf := by
  intro k e he
  simp [Cache.make, lookupEntry] at he

lemma getCacheEntry_wf {V E : Type} (c : Cache V E) (hc : c.wf) (id : EntId) :
    ((c.getCacheEntry id).2).wf := by
  intro k e he
  rw [getCacheEntry_lookup] at he
  by_cases hk : id.key = k
  · rw [if_pos hk] at he
    have h2 := Option.some.inj he
    rw [← h2]
    exact entryOrFresh_wf c hc id.key
  · rw [if_neg hk] at he
    exact hc _ _ he

lemma load_wf {V E : Type} (c : Cache V E) (hc : c.wf) (id : EntId) (vor : ValueOrResolver V E) :
    ((c.load id vor).1).wf := by
  intro k e he
  rw [load_lookup] at he
  by_cases hk : id.key = k
  · rw [if_pos hk] at he
    cases hr : resolveVor vor with
    | ok w =>
        rw [hr] at he
        have h2 := Option.some.inj he
        rw [← h2]
        simp [Entry.wf]
    | error err =>
        rw [hr] at he
        have h2 := Option.some.inj he
        rw [← h2]
        simp [Entry.wf]
  · rw [if_neg hk] at he
    exact hc _ _ he

lemma loadManyAux_wf {V E : Type} (shared : Except E (List (JsVal V))) :
    ∀ (ids : List EntId) (c : Cache V E) (i : Nat), c.wf →
      ((Cache.loadManyAux shared c ids i).1).wf := by
  intro ids
  induction ids with
  | nil => intro c i hc; exact hc
  | cons id rest ih =>
      intro c i hc
      simp only [Cache.loadManyAux]
      exact ih _ _ (load_wf _ hc _ _)

lemma evict_wf {V E : Type} (c : Cache V E) (hc : c.wf) (id : EntId) :
    ((c.evict id).1).wf := by
  intro k e he
  rw [evict_lookup] at he
  by_cases hk : id.key = k
  · rw [if_pos hk] at he
    exact absurd he (by simp)
  · rw [if_neg hk] at he
    exact hc _ _ he

lemma byId_wf {V E : Type} (c : Cache V E) (hc : c.wf) (id : EntId) :
    ((c.byId id).1).wf := by
  intro k e he
  rw [byId_storage] at he
  exact getCacheEntry_wf c hc id _ _ he

lemma statusById_fst {V E : Type} (c : Cache V E) (id : EntId) :
    (c.statusById id).1 = (c.getCacheEntry id).2 := rfl

lemma loaded_fst {V E : Type} (c : Cache V E) (id : EntId) (future : List (Entry V E)) :
    (c.loaded id future).1 = (c.getCacheEntry id).2 := rfl

lemma initEntry_wf {V E : Type} (c : Cache V E) (hc : c.wf) (id : EntId)
    (vor : ValueOrResolver V E) : ((c.initEntry id vor).1).wf := by
  simp only [Cache.initEntry]
  split_ifs with hcond
  · exact load_wf _ (getCacheEntry_wf c hc id) _ _
  · exact getCacheEntry_wf c hc id

lemma loadMany_wf {V E : Type} (c : Cache V E) (hc : c.wf) (ids : List EntId)
    (vor : ValuesOrResolver V E) : ((c.loadMany ids vor).1).wf := by
  simp only [Cache.loadMany]
  exact loadManyAux_wf _ _ _ _ hc

lemma entryOrFresh_eq {V E : Type} (c : Cache V E) (key : String) (e : Entry V E)
    (h : lookupEntry c.storage key = some e) : entryOrFresh c key = e := by
  unfold entryOrFresh
  rw [h]

lemma byId_snd_of_lookup {V E : Type} (c : Cache V E) (id : EntId) (e : Entry V E)
    (h : lookupEntry c.storage id.key = some e) :
    (c.byId id).2 = (e.value, e.status, e.error) := by
  rw [byId_snd, entryOrFresh_eq _ _ _ h]

lemma byId_snd_of_none {V E : Type} (c : Cache V E) (id : EntId)
    (h : lookupEntry c.storage id.key = none) :
    (c.byId id).2 = (JsVal.jnull, Status.UNINITIALIZED, none) := by
  rw [byId_snd]
  unfold entryOrFresh
  rw [h]
  rfl

lemma loadedRun_hit_LOADED {V E : Type} (e : Entry V E) (rest : List (Entry V E))
    (h : e.status = Status.LOADED) :
    loadedRun (e :: rest) = some (Except.ok e.value) := by
  simp only [loadedRun, h]

lemma loadedRun_hit_FAILED {V E : Type} (e : Entry V E) (rest : List (Entry V E))
    (h : e.status = Status.FAILED) :
    loadedRun (e :: rest) = some (Except.error e.error) := by
  simp only [loadedRun, h]

lemma loadedRun_skip {V E : Type} :
    ∀ (pre l : List (Entry V E)),
      (∀ x ∈ pre, x.status ≠ Status.LOADED ∧ x.status ≠ Status.FAILED) →
      loadedRun (pre ++ l) = loadedRun l := by
  intro pre
  induction pre with
  | nil => intro l _; rfl
  | cons x pre ih =>
      intro l hx
      have h1 := hx x (List.mem_cons_self x pre)
      have h2 : ∀ y ∈ pre, y.status ≠ Status.LOADED ∧ y.status ≠ Status.FAILED :=
        fun y hy => hx y (List.mem_cons_of_mem _ hy)
      rw [List.cons_append]
      cases hs : x.status with
      | UNINITIALIZED =>
          simp only [loadedRun, hs]
          exact ih l h2
      | LOADING =>
          simp only [loadedRun, hs]
          exact ih l h2
      | LOADED => exact absurd hs h1.1
      | FAILED => exact absurd hs h1.2

lemma loadedRun_append {V E : Type} :
    ∀ (hist extra : List (Entry V E)) (r : Except (Option E) (JsVal V)),
      loadedRun hist = some r → loadedRun (hist ++ extra) = some r := by
  intro hist
  induction hist with
  | nil =>
      intro extra r h
      simp [loadedRun] at h
  | cons x t ih =>
      intro extra r h
      rw [List.cons_append]
      cases hs : x.status with
      | UNINITIALIZED =>
          simp only [loadedRun, hs] at h
          simp only [loadedRun, hs]
          exact ih extra r h
      | LOADING =>
          simp only [loadedRun, hs] at h
          simp only [loadedRun, hs]
          exact ih extra r h
      | LOADED =>
          simp only [loadedRun, hs] at h
          simp only [loadedRun, hs]
          exact h
      | FAILED =>
          simp only [loadedRun, hs] at h
          simp only [loadedRun, hs]
          exact h

lemma load_after_get {V E : Type} (c : Cache V E) (id : EntId) (vor : ValueOrResolver V E) :
    ((c.getCacheEntry id).2).load id vor = c.load id vor := by
  unfold Cache.load
  rw [getCacheEntry_idem]

lemma initEntry_delegates {V E : Type} (c : Cache V E) (id : EntId) (vor : ValueOrResolver V E)
    (hcond : (entryOrFresh c id.key).status = Status.UNINITIALIZED ∨
      (entryOrFresh c id.key).status = Status.FAILED) :
    c.initEntry id vor = ((c.load id vor).1, (c.load id vor).2.1, some (c.load id vor).2.2) := by
  simp only [Cache.initEntry, getCacheEntry_fst]
  rw [if_pos hcond, load_after_get]

lemma initEntry_noop {V E : Type} (c : Cache V E) (id : EntId) (vor : ValueOrResolver V E)
    (e : Entry V E) (he : lookupEntry c.storage id.key = some e)
    (hst : e.status = Status.LOADING ∨ e.status = Status.LOADED) :
    c.initEntry id vor = (c, [], none) := by
  have hsnd : (c.getCacheEntry id).2 = c := by
    unfold Cache.getCacheEntry
    rw [he]
  simp only [Cache.initEntry, getCacheEntry_fst, entryOrFresh_eq _ _ _ he]
  rw [if_neg (by rcases hst with h | h <;> simp [h]), hsnd]

lemma jsIndex_undef {V : Type} (vs : List (JsVal V)) (i : Nat) (h : vs.length ≤ i) :
    jsIndex vs i = .undefVal := by
  unfold jsIndex
  rw [List.get?_eq_none.mpr h]

lemma loadMany_invoke {V E : Type} (c : Cache V E) (ids : List EntId)
    (vor : ValuesOrResolver V E) :
    ((c.loadMany ids vor).2.1).filter Event.isInvoke
      = if vor.isCallable then [Event.invokeShared] else [] := by
  simp only [Cache.loadMany, List.filter_append, loadManyAux_no_invoke, List.append_nil]
  cases vor <;> simp [ValuesOrResolver.isCallable, Event.isInvoke]

/-- C1: for every id and every value (or resolver resolving to that value),
when `load(id, valueOrResolver)` resolves successfully the entry's cells are
written in the order value, then error, then status (after the initial
LOADING status write), ending with `byId(id) = [value, LOADED, null]`, and
the promise returned by `load` resolves with the resolved value. -/
theorem claim_C1 {V E : Type} (c : Cache V E) (id : EntId) (vor : ValueOrResolver V E)
    (w : JsVal V) (h : resolveVor vor = .ok w) :
    (c.load id vor).2.1 = [.wStatus id.key .LOADING, .wValue id.key w,
      .wError id.key none, .wStatus id.key .LOADED] ∧
    (((c.load id vor).1).byId id).2 = (w, Status.LOADED, none) ∧
    (c.load id vor).2.2 = w := by
  refine ⟨load_trace_ok c id vor w h, ?_, ?_⟩
  · have hl : lookupEntry ((c.load id vor).1).storage id.key
        = some { value := w, status := Status.LOADED, error := none } := by
      rw [load_lookup, if_pos rfl, h]
    rw [byId_snd_of_lookup _ _ _ hl]
  · rw [load_result, h]

theorem claim_C1_witness :
    resolveVor (ValueOrResolver.value (JsVal.val 7) : ValueOrResolver Nat Nat)
      = Except.ok (JsVal.val 7) ∧
    ((((Cache.make : Cache Nat Nat).load (EntId.num 42)
        (ValueOrResolver.value (JsVal.val 7))).1).byId (EntId.num 42)).2
      = (JsVal.val 7, Status.LOADED, none) :=
  ⟨rfl, (claim_C1 Cache.make (EntId.num 42) (ValueOrResolver.value (JsVal.val 7))
    (JsVal.val 7) rfl).2.1⟩

/-- C2: for every id, when the resolver passed to `load(id, resolver)` throws
or rejects with reason err, `load` stores err in the error cell and sets
status FAILED (in that order, after the LOADING write), leaves the value
cell unchanged (a failed reload preserves the last loaded value), and the
promise returned by `load` resolves with null; the error is not re-thrown. -/
theorem claim_C2 {V E : Type} (c : Cache V E) (id : EntId) (vor : ValueOrResolver V E)
    (err : E) (h : resolveVor vor = .error err) :
    (c.load id vor).2.1 = [.wStatus id.key .LOADING, .wError id.key (some err),
      .wStatus id.key .FAILED] ∧
    (((c.load id vor).1).byId id).2
      = ((entryOrFresh c id.key).value, Status.FAILED, some err) ∧
    (c.load id vor).2.2 = .jnull := by
  refine ⟨load_trace_error c id vor err h, ?_, ?_⟩
  · have hl : lookupEntry ((c.load id vor).1).storage id.key
        = some { value := (entryOrFresh c id.key).value, status := Status.FAILED,
                 error := some err } := by
      rw [load_lookup, if_pos rfl, h]
    rw [byId_snd_of_lookup _ _ _ hl]
  · rw [load_result, h]

theorem claim_C2_witness :
    resolveVor (ValueOrResolver.resolver (Except.error 9) : ValueOrResolver Nat Nat)
      = Except.error 9 ∧
    (((((Cache.make : Cache Nat Nat).load (EntId.num 42)
          (ValueOrResolver.value (JsVal.val 1))).1).load (EntId.num 42)
        (ValueOrResolver.resolver (Except.error 9))).1.byId (EntId.num 42)).2
      = (JsVal.val 1, Status.FAILED, some 9) := by
  refine ⟨rfl, ?_⟩
  have h := (claim_C2 (((Cache.make : Cache Nat Nat).load (EntId.num 42)
    (ValueOrResolver.value (JsVal.val 1))).1) (EntId.num 42)
    (ValueOrResolver.resolver (Except.error 9)) 9 rfl).2.1
  rw [h]
  decide

/-- C6: for every id, `evict(id)` resets the entry's cells in place in the
order value := null, status := UNINITIALIZED, error := null, removes the
id's memoized accessor, removes the id's slot from the storage mapping,
and a subsequent `byId(id)` returns `[null, UNINITIALIZED, null]`. -/
theorem claim_C6 {V E : Type} (c : Cache V E) (id : EntId) :
    (c.evict id).2 = [.wValue id.key .jnull, .wStatus id.key .UNINITIALIZED,
      .wError id.key none] ∧
    ((c.evict id).1).accessors id.key = false ∧
    lookupEntry ((c.evict id).1).storage id.key = none ∧
    (((c.evict id).1).byId id).2 = (JsVal.jnull, Status.UNINITIALIZED, none) := by
  refine ⟨evict_trace c id, evict_accessors_self c id, ?_, ?_⟩
  · rw [evict_lookup, if_pos rfl]
  · exact byId_snd_of_none _ _ (by rw [evict_lookup, if_pos rfl])

/-- C7: `clear()` resets the accessor table and the storage mapping to
empty; for every id the subsequent `byId(id)` read returns
`[null, UNINITIALIZED, null]`, exactly as it would after evicting every
key known to the storage mapping. -/
theorem claim_C7 {V E : Type} (c : Cache V E) :
    (∀ k : String, (c.clear).accessors k = false) ∧
    (c.clear).storage = [] ∧
    (∀ id : EntId, ((c.clear).byId id).2 = (JsVal.jnull, Status.UNINITIALIZED, none)) ∧
    (∀ id : EntId, ((c.clear).byId id).2 = ((evictAll c).byId id).2) := by
  refine ⟨fun k => rfl, rfl, ?_, ?_⟩
  · intro id
    exact byId_snd_of_none _ _ (by rfl)
  · intro id
    rw [byId_snd_of_none _ _ (by rfl), byId_snd_of_none _ _ (evictAll_lookup c id.key)]

/-- C9: every operation keys the storage mapping by the string coercion of
the id, so an id and its string form denote the same entry: `byId`, `load`,
`initialize`, `evict` and `statusById` behave identically on `id` and on
`String(id)`, and after `load(42, w)` resolves, `byId("42")` returns
`[w, LOADED, null]`. -/
theorem claim_C9 {V E : Type} :
    (∀ (c : Cache V E) (i : EntId), c.byId i = c.byId (EntId.str i.key)) ∧
    (∀ (c : Cache V E) (i : EntId) (vor : ValueOrResolver V E),
      c.load i vor = c.load (EntId.str i.key) vor) ∧
    (∀ (c : Cache V E) (i : EntId) (vor : ValueOrResolver V E),
      c.initEntry i vor = c.initEntry (EntId.str i.key) vor) ∧
    (∀ (c : Cache V E) (i : EntId), c.evict i = c.evict (EntId.str i.key)) ∧
    (∀ (c : Cache V E) (i : EntId), c.statusById i = c.statusById (EntId.str i.key)) ∧
    (∀ (c : Cache V E) (w : JsVal V),
      (((c.load (EntId.num 42) (ValueOrResolver.value w)).1).byId (EntId.str "42")).2
        = (w, Status.LOADED, none)) := by
  refine ⟨fun c i => rfl, fun c i vor => rfl, fun c i vor => rfl, fun c i => rfl,
    fun c i => rfl, ?_⟩
  intro c w
  have hl : lookupEntry ((c.load (EntId.num 42) (ValueOrResolver.value w)).1).storage
      (EntId.str "42").key = some { value := w, status := Status.LOADED, error := none } := by
    rw [load_lookup, if_pos (by decide : (EntId.num 42).key = (EntId.str "42").key)]
    rfl
  exact byId_snd_of_lookup _ _ _ hl

/-- C3: `loaded(id)` resolves with the entry's current value on the first
snapshot whose status is LOADED and rejects with the entry's current error
on the first snapshot whose status is FAILED, including when the entry is
already settled at call time (the first delivered snapshot), and once
settled it stays settled on the same outcome regardless of any later
snapshots (the callback has unsubscribed). -/
theorem claim_C3 {V E : Type} :
    (∀ (c : Cache V E) (id : EntId) (future : List (Entry V E)) (e : Entry V E),
        lookupEntry c.storage id.key = some e →
        (e.status = Status.LOADED → (c.loaded id future).2 = some (Except.ok e.value)) ∧
        (e.status = Status.FAILED → (c.loaded id future).2 = some (Except.error e.error))) ∧
    (∀ (pre : List (Entry V E)) (e : Entry V E) (rest : List (Entry V E)),
        (∀ x ∈ pre, x.status ≠ Status.LOADED ∧ x.status ≠ Status.FAILED) →
        (e.status = Status.LOADED →
          loadedRun (pre ++ e :: rest) = some (Except.ok e.value)) ∧
        (e.status = Status.FAILED →
          loadedRun (pre ++ e :: rest) = some (Except.error e.error))) ∧
    (∀ (hist extra : List (Entry V E)) (r : Except (Option E) (JsVal V)),
        loadedRun hist = some r → loadedRun (hist ++ extra) = some r) := by
  refine ⟨?_, ?_, loadedRun_append⟩
  · intro c id future e he
    have hfst : (c.getCacheEntry id).1 = e := by
      rw [getCacheEntry_fst, entryOrFresh_eq _ _ _ he]
    constructor
    · intro hs
      show loadedRun ((c.getCacheEntry id).1 :: future) = _
      rw [hfst, loadedRun_hit_LOADED e future hs]
    · intro hs
      show loadedRun ((c.getCacheEntry id).1 :: future) = _
      rw [hfst, loadedRun_hit_FAILED e future hs]
  · intro pre e rest hpre
    constructor
    · intro hs
      rw [loadedRun_skip pre (e :: rest) hpre, loadedRun_hit_LOADED e rest hs]
    · intro hs
      rw [loadedRun_skip pre (e :: rest) hpre, loadedRun_hit_FAILED e rest hs]

theorem claim_C3_witness :
    ((((Cache.make : Cache Nat Nat).load (EntId.num 42)
        (ValueOrResolver.value (JsVal.val 7))).1).loaded (EntId.num 42) []).2
      = some (Except.ok (JsVal.val 7)) ∧
    loadedRun ([({ value := .jnull, status := .UNINITIALIZED, error := none } : Entry Nat Nat),
        { value := .jnull, status := .LOADING, error := none }] ++
        ({ value := .val 3, status := .LOADED, error := none } : Entry Nat Nat) :: [])
      = some (Except.ok (JsVal.val 3)) ∧
    loadedRun ([({ value := .val 3, status := .LOADED, error := none } : Entry Nat Nat)] ++
        [{ value := .jnull, status := .FAILED, error := some 1 }])
      = some (Except.ok (JsVal.val 3)) := by
  refine ⟨?_, ?_, ?_⟩
  · exact (claim_C3.1 (((Cache.make : Cache Nat Nat).load (EntId.num 42)
      (ValueOrResolver.value (JsVal.val 7))).1) (EntId.num 42) []
      { value := .val 7, status := .LOADED, error := none } (by decide)).1 rfl
  · exact (claim_C3.2.1 [{ value := .jnull, status := .UNINITIALIZED, error := none },
      { value := .jnull, status := .LOADING, error := none }]
      { value := .val 3, status := .LOADED, error := none } [] (by decide)).1 rfl
  · exact claim_C3.2.2 [{ value := .val 3, status := .LOADED, error := none }]
      [{ value := .jnull, status := .FAILED, error := some 1 }] (Except.ok (JsVal.val 3)) rfl

/-- C4: `initialize(id, valueOrResolver)` delegates to `load` exactly when
the entry's current status is UNINITIALIZED or FAILED; when the status is
LOADING or LOADED it performs no state change and returns undefined, so a
second initialize on a LOADED entry leaves `byId(id)` reflecting the first
value. -/
theorem claim_C4 {V E : Type} (c : Cache V E) (id : EntId) (vor : ValueOrResolver V E) :
    ((entryOrFresh c id.key).status = Status.UNINITIALIZED ∨
        (entryOrFresh c id.key).status = Status.FAILED →
      c.initEntry id vor = ((c.load id vor).1, (c.load id vor).2.1,
        some (c.load id vor).2.2)) ∧
    (∀ e : Entry V E, lookupEntry c.storage id.key = some e →
      e.status = Status.LOADING ∨ e.status = Status.LOADED →
      c.initEntry id vor = (c, [], none)) ∧
    (∀ w : JsVal V,
      ((c.load id (ValueOrResolver.value w)).1).initEntry id vor
        = ((c.load id (ValueOrResolver.value w)).1, [], none) ∧
      ((((c.load id (ValueOrResolver.value w)).1).initEntry id vor).1.byId id).2
        = (w, Status.LOADED, none)) := by
  refine ⟨initEntry_delegates c id vor, fun e he hst => initEntry_noop c id vor e he hst, ?_⟩
  intro w
  have hl : lookupEntry ((c.load id (ValueOrResolver.value w)).1).storage id.key
      = some { value := w, status := Status.LOADED, error := none } := by
    rw [load_lookup, if_pos rfl]
    rfl
  have hnoop := initEntry_noop ((c.load id (ValueOrResolver.value w)).1) id vor
    { value := w, status := Status.LOADED, error := none } hl (Or.inr rfl)
  refine ⟨hnoop, ?_⟩
  rw [hnoop]
  exact byId_snd_of_lookup _ _ _ hl

theorem claim_C4_witness :
    (Cache.make : Cache Nat Nat).initEntry (EntId.num 5) (ValueOrResolver.value (JsVal.val 3))
      = (((Cache.make : Cache Nat Nat).load (EntId.num 5)
            (ValueOrResolver.value (JsVal.val 3))).1,
         ((Cache.make : Cache Nat Nat).load (EntId.num 5)
            (ValueOrResolver.value (JsVal.val 3))).2.1,
         some (((Cache.make : Cache Nat Nat).load (EntId.num 5)
            (ValueOrResolver.value (JsVal.val 3))).2.2)) ∧
    (((((Cache.make : Cache Nat Nat).load (EntId.num 5)
        (ValueOrResolver.value (JsVal.val 3))).1).initEntry (EntId.num 5)
        (ValueOrResolver.value (JsVal.val 4))).1.byId (EntId.num 5)).2
      = (JsVal.val 3, Status.LOADED, none) := by
  constructor
  · exact (claim_C4 (Cache.make : Cache Nat Nat) (EntId.num 5)
      (ValueOrResolver.value (JsVal.val 3))).1 (Or.inl rfl)
  · exact ((claim_C4 (Cache.make : Cache Nat Nat) (EntId.num 5)
      (ValueOrResolver.value (JsVal.val 4))).2.2 (JsVal.val 3)).2

/-- C5: `loadMany(ids, valuesOrResolver)` invokes the shared resolver exactly
once when it is callable (and never otherwise) regardless of the number of
ids, resolves with an array positionally aligned with ids, and when the
shared array resolves successfully each id (ids with pairwise distinct
string keys) ends with `byId(ids[i]) = [vs[i], LOADED, null]` and the
result at position i is the projection of the shared array at index i. -/
theorem claim_C5 {V E : Type} :
    (∀ (c : Cache V E) (ids : List EntId) (vor : ValuesOrResolver V E),
        (((c.loadMany ids vor).2.1).filter Event.isInvoke).length
          = if vor.isCallable then 1 else 0) ∧
    (∀ (c : Cache V E) (ids : List EntId) (vor : ValuesOrResolver V E) (vs : List (JsVal V)),
        resolveVors vor = .ok vs → (ids.map EntId.key).Nodup →
        (c.loadMany ids vor).2.2.length = ids.length ∧
        ∀ (i : Nat) (id1 : EntId), ids.get? i = some id1 →
          (c.loadMany ids vor).2.2.get? i = some (jsIndex vs i) ∧
          (((c.loadMany ids vor).1).byId id1).2 = (jsIndex vs i, Status.LOADED, none)) := by
  constructor
  · intro c ids vor
    rw [loadMany_invoke]
    cases h : vor.isCallable <;> simp [h]
  · intro c ids vor vs hsh hnd
    have hfst : (c.loadMany ids vor).1
        = (Cache.loadManyAux (Except.ok vs : Except E (List (JsVal V))) c ids 0).1 := by
      simp only [Cache.loadMany, hsh]
    have hres : (c.loadMany ids vor).2.2
        = (Cache.loadManyAux (Except.ok vs : Except E (List (JsVal V))) c ids 0).2.2 := by
      simp only [Cache.loadMany, hsh]
    constructor
    · rw [hres, loadManyAux_length]
    · intro i id1 hid
      have hp := loadManyAux_perId vs ids c 0 hnd i id1 hid
      rw [Nat.zero_add] at hp
      refine ⟨by rw [hres]; exact hp.2, ?_⟩
      rw [hfst]
      exact byId_snd_of_lookup _ _ _ hp.1

theorem claim_C5_witness :
    ((((Cache.make : Cache Nat Nat).loadMany [EntId.num 42, EntId.num 43]
        (ValuesOrResolver.resolver (Except.ok [JsVal.val 10, JsVal.val 20]))).2.1).filter
        Event.isInvoke).length = 1 ∧
    (((Cache.make : Cache Nat Nat).loadMany [EntId.num 42, EntId.num 43]
        (ValuesOrResolver.values [JsVal.val 10, JsVal.val 20])).2.2).get? 0
      = some (JsVal.val 10) ∧
    ((((Cache.make : Cache Nat Nat).loadMany [EntId.num 42, EntId.num 43]
        (ValuesOrResolver.values [JsVal.val 10, JsVal.val 20])).1).byId (EntId.num 43)).2
      = (JsVal.val 20, Status.LOADED, none) := by
  refine ⟨?_, ?_, ?_⟩
  · simpa using claim_C5.1 (Cache.make : Cache Nat Nat) [EntId.num 42, EntId.num 43]
      (ValuesOrResolver.resolver (Except.ok [JsVal.val 10, JsVal.val 20]))
  · exact (((claim_C5.2 (Cache.make : Cache Nat Nat) [EntId.num 42, EntId.num 43]
      (ValuesOrResolver.values [JsVal.val 10, JsVal.val 20]) [JsVal.val 10, JsVal.val 20]
      rfl (by decide)).2) 0 (EntId.num 42) rfl).1
  · exact (((claim_C5.2 (Cache.make : Cache Nat Nat) [EntId.num 42, EntId.num 43]
      (ValuesOrResolver.values [JsVal.val 10, JsVal.val 20]) [JsVal.val 10, JsVal.val 20]
      rfl (by decide)).2) 1 (EntId.num 43) rfl).2

/-- C8: starting from any well-formed cache, the completion of every public
operation (load, initialize, loadMany, evict, clear, byId, statusById,
loaded, and entry creation) yields a cache in which every stored entry
satisfies the invariant: LOADED implies no error, FAILED implies an error
is present, UNINITIALIZED implies null value and no error. -/
theorem claim_C8 {V E : Type} (c : Cache V E) (hc : c.wf) :
    (∀ (id : EntId) (vor : ValueOrResolver V E), ((c.load id vor).1).wf) ∧
    (∀ (id : EntId) (vor : ValueOrResolver V E), ((c.initEntry id vor).1).wf) ∧
    (∀ (ids : List EntId) (vor : ValuesOrResolver V E), ((c.loadMany ids vor).1).wf) ∧
    (∀ id : EntId, ((c.evict id).1).wf) ∧
    (c.clear).wf ∧
    (∀ id : EntId, ((c.byId id).1).wf) ∧
    (∀ id : EntId, ((c.statusById id).1).wf) ∧
    (∀ (id : EntId) (future : List (Entry V E)), ((c.loaded id future).1).wf) ∧
    (∀ id : EntId, ((c.getCacheEntry id).2).wf) := by
  refine ⟨fun id vor => load_wf c hc id vor,
    fun id vor => initEntry_wf c hc id vor,
    fun ids vor => loadMany_wf c hc ids vor,
    fun id => evict_wf c hc id,
    make_wf,
    fun id => byId_wf c hc id,
    fun id => ?_,
    fun id future => ?_,
    fun id => getCacheEntry_wf c hc id⟩
  · rw [statusById_fst]
    exact getCacheEntry_wf c hc id
  · rw [loaded_fst]
    exact getCacheEntry_wf c hc id

theorem claim_C8_witness :
    (((Cache.make : Cache Nat Nat).load (EntId.num 1)
        (ValueOrResolver.value (JsVal.val 2))).1).wf :=
  (claim_C8 Cache.make make_wf).1 (EntId.num 1) (ValueOrResolver.value (JsVal.val 2))

/-- C10: when the shared array of `loadMany` resolves successfully but is
shorter than ids, an id at an index past the end of the array still
transitions to LOADED, its projection yields the out-of-range element
`undefined`, which is stored as the entry's value with error null, and the
corresponding result position holds that `undefined` value. -/
theorem claim_C10 {V E : Type} (c : Cache V E) (ids : List EntId)
    (vor : ValuesOrResolver V E) (vs : List (JsVal V)) (i : Nat) (id1 : EntId)
    (hsh : resolveVors vor = .ok vs) (hnd : (ids.map EntId.key).Nodup)
    (hid : ids.get? i = some id1) (hshort : vs.length ≤ i) :
    (c.loadMany ids vor).2.2.get? i = some JsVal.undefVal ∧
    (((c.loadMany ids vor).1).byId id1).2 = (JsVal.undefVal, Status.LOADED, none) := by
  have hfst : (c.loadMany ids vor).1
      = (Cache.loadManyAux (Except.ok vs : Except E (List (JsVal V))) c ids 0).1 := by
    simp only [Cache.loadMany, hsh]
  have hres : (c.loadMany ids vor).2.2
      = (Cache.loadManyAux (Except.ok vs : Except E (List (JsVal V))) c ids 0).2.2 := by
    simp only [Cache.loadMany, hsh]
  have hp := loadManyAux_perId vs ids c 0 hnd i id1 hid
  rw [Nat.zero_add, jsIndex_undef vs i hshort] at hp
  refine ⟨by rw [hres]; exact hp.2, ?_⟩
  rw [hfst]
  exact byId_snd_of_lookup _ _ _ hp.1

theorem claim_C10_witness :
    (((Cache.make : Cache Nat Nat).loadMany [EntId.num 1, EntId.num 2]
        (ValuesOrResolver.values [JsVal.val 5])).2.2).get? 1 = some JsVal.undefVal ∧
    ((((Cache.make : Cache Nat Nat).loadMany [EntId.num 1, EntId.num 2]
        (ValuesOrResolver.values [JsVal.val 5])).1).byId (EntId.num 2)).2
      = (JsVal.undefVal, Status.LOADED, none) :=
  claim_C10 Cache.make [EntId.num 1, EntId.num 2] (ValuesOrResolver.values [JsVal.val 5])
    [JsVal.val 5] 1 (EntId.num 2) rfl (by decide) rfl (by decide)
